import Mathlib

/-!
Verification development for the System2025 time-series preparation and
synthetic-history scripts.

The embedding below translates, from the Python sources:

* `generate_amoxicillin_clean.py` — the day-by-day synthetic history
  generator (`generate_amoxicillin_history`): daily demand computation,
  reorder check, order splitting with the 10,000-order safety check,
  stock movements, and the single end-of-run commit.
* `generate_amoxicillin_historical_data.py` — the class-based generator;
  its `calculate_daily_sales` is embedded for comparison with the clean
  script's inline daily-sales computation, and its `verify_data_quality`
  shares the percentage computation embedded in `verify_data_quality`.
* `debug_grouping.py` — the pandas weekly grouping
  (`groupby(dt.to_period('W'))`, `to_timestamp()`) and the reindexing step
  (`pd.date_range(min, max, freq='W')` + `reindex(..., fill_value=0)`).

Modelling conventions:

* Python floats are modelled by exact rationals (`ℚ`); `int(x)` is
  truncation toward zero and `round(x)` is round-half-to-even, as in
  Python 3.
* Timestamps are integer day numbers; day numbers are chosen so that
  `d % 7 = 0` means Monday and `d % 7 = 6` means Sunday, matching the
  weekday convention of `date.weekday()` and of pandas weekly periods
  (a `to_period('W').to_timestamp()` key is the Monday starting the week,
  while `pd.date_range(..., freq='W')` emits Sundays).
* The seeded random module is modelled by explicit draw streams threaded
  through the state, one per call site: `udraw` for
  `random.uniform(0.8, 1.2)`, `qdraw` for `random.randint(1, 5)` (the
  draw `1 + qdraw k % 5`), `cdraw` for `random.choice(sales_reps)` (the
  draw selects index `cdraw k % len`).  A fixed seed determines all
  streams; the per-stream positions `uPos`, `qPos`, `cPos` record exactly
  when the code consumes a draw.
* Database writes become an append-only event list, stored newest-first
  (chronological order is the reverse); the sqlite connection's
  transaction is modelled in `runTx`: writes accumulate and are published
  only by the single `conn.commit()` at the end of the run, while an
  exception triggers `conn.rollback()`, discarding them all.
-/

namespace MedNov

/-- Python `int(x)` conversion of an exact rational: truncation toward zero. -/
def pyInt (q : ℚ) : ℤ := Int.tdiv q.num (q.den : ℤ)

/-- Mathematical floor of a rational, written with `Int.fdiv` so that it
evaluates by kernel reduction. -/
def ratFloorZ (q : ℚ) : ℤ := Int.fdiv q.num (q.den : ℤ)

/-- Fractional part of a rational, relative to `ratFloorZ`. -/
def ratFrac (q : ℚ) : ℚ := q - (ratFloorZ q : ℚ)

/-- Python 3 `round(x)` on an exact rational: round half to even. -/
def pyRound (q : ℚ) : ℤ :=
  if ratFrac q < 1/2 then ratFloorZ q
  else if 1/2 < ratFrac q then ratFloorZ q + 1
  else if ratFloorZ q % 2 = 0 then ratFloorZ q else ratFloorZ q + 1

/-- Seasonal multiplier of `generate_amoxicillin_clean.py` (lines 138-144):
1.3 for December-February, 0.8 for June-August, 1.0 otherwise. -/
def seasonalMultClean (month : ℕ) : ℚ :=
  if month = 12 ∨ month = 1 ∨ month = 2 then 13/10
  else if month = 6 ∨ month = 7 ∨ month = 8 then 8/10
  else 1

/-- Weekday multiplier of `generate_amoxicillin_clean.py` (line 148):
0.7 on Sunday (weekday 6), 1.0 otherwise. -/
def weekdayMultClean (weekday : ℕ) : ℚ := if weekday = 6 then 7/10 else 1

/-- Daily sales of `generate_amoxicillin_clean.py` (lines 154-155):
`max(1, int(15 * seasonal * weekday * growth * uniform))`.  The growth
factor `1.08 ** years_elapsed` and the uniform draw are passed in as
rationals. -/
def dailySalesClean (month weekday : ℕ) (growth u : ℚ) : ℕ :=
  (max 1 (pyInt (15 * seasonalMultClean month * weekdayMultClean weekday * growth * u))).toNat

/-- Seasonal multiplier of `generate_amoxicillin_historical_data.py`
(`seasonal_multipliers` with `get_season`): winter 1.3, spring 0.9,
summer 0.8, fall 1.1. -/
def seasonalMultHist (month : ℕ) : ℚ :=
  if month = 12 ∨ month = 1 ∨ month = 2 then 13/10
  else if month = 3 ∨ month = 4 ∨ month = 5 then 9/10
  else if month = 6 ∨ month = 7 ∨ month = 8 then 8/10
  else 11/10

/-- Weekday multipliers of `generate_amoxicillin_historical_data.py`
(lines 47-55): Monday 0.7 through Sunday 0.4. -/
def weekdayMultHist (weekday : ℕ) : ℚ :=
  if weekday = 0 then 7/10
  else if weekday = 1 then 9/10
  else if weekday = 2 then 1
  else if weekday = 3 then 11/10
  else if weekday = 4 then 12/10
  else if weekday = 5 then 6/10
  else 4/10

/-- Daily sales of `AmoxicillinDataGenerator.calculate_daily_sales`
(lines 79-101): `max(1, int(round(15 * seasonal * weekday * growth * uniform)))`. -/
def dailySalesHist (month weekday : ℕ) (growth u : ℚ) : ℕ :=
  (max 1 (pyRound (15 * seasonalMultHist month * weekdayMultHist weekday * growth * u))).toNat

/-- A database write of the generator: a stock movement row.  A reorder
records its positive quantity; a sale records the order item quantity and
the (negative) stock-movement quantity from the two INSERT statements,
plus the chosen sales-rep id. -/
inductive Event where
  | reorder (qty : ℤ)
  | sale (orderQty : ℕ) (movementQty : ℤ) (rep : ℕ)
deriving DecidableEq, Repr

/-- Signed stock delta of an event, as recorded in the movement ledger. -/
def evDelta : Event → ℤ
  | Event.reorder q => q
  | Event.sale _ m _ => m

/-- Mutable state of `generate_amoxicillin_history`: running stock,
order counters, positions of the three random-draw streams, and the
events written so far (newest first). -/
structure GenState where
  stock : ℤ
  ordersCreated : ℕ
  orderCounter : ℕ
  uPos : ℕ
  qPos : ℕ
  cPos : ℕ
  events : List Event
deriving DecidableEq, Repr

/-- Initial state of the run (lines 113-116): stock 5000, all counters 0. -/
def initState : GenState :=
  { stock := 5000, ordersCreated := 0, orderCounter := 0,
    uPos := 0, qPos := 0, cPos := 0, events := [] }

/-- Per-day calendar input of the generator: the month, the weekday and
the (float) growth factor `1.08 ** years_elapsed` for that date. -/
structure DayInfo where
  month : ℕ
  weekday : ℕ
  growth : ℚ
deriving DecidableEq, Repr

/-- Inner order-creation loop of `generate_amoxicillin_clean.py`
(lines 183-289), iterated `orders_today` times: break when the remaining
demand or the stock is exhausted; draw `randint(1,5)`; cap the order
quantity by remaining demand and stock; break (before writing anything)
when more than 10,000 orders exist; otherwise create the order, draw the
sales rep, decrement stock and append the sale movement. -/
def salesLoop (qdraw cdraw : ℕ → ℕ) (reps : List ℕ) :
    ℕ → ℕ → GenState → GenState
  | 0, _, s => s
  | n + 1, remaining, s =>
    if remaining = 0 ∨ s.stock ≤ 0 then s
    else
      let q := min (min (1 + qdraw s.qPos % 5) remaining) s.stock.toNat
      let s1 : GenState := { s with qPos := s.qPos + 1 }
      if q = 0 then s1
      else if 10000 < s1.ordersCreated then s1
      else
        let rep := reps.getD (cdraw s1.cPos % reps.length) 0
        let s2 : GenState := { s1 with
          orderCounter := s1.orderCounter + 1,
          cPos := s1.cPos + 1,
          stock := s1.stock - (q : ℤ),
          ordersCreated := s1.ordersCreated + 1,
          events := Event.sale q (-(q : ℤ)) rep :: s1.events }
        salesLoop qdraw cdraw reps n (remaining - q) s2

/-- One simulated day (lines 157-289): the reorder check
`current_stock < daily_sales and current_stock <= 200` fires first,
appending a +1000 movement and raising stock; then the sales loop runs
`min(max(1, daily_sales // 3), 8)` times. -/
def dayStep (qdraw cdraw : ℕ → ℕ) (reps : List ℕ) (dem : ℕ) (s : GenState) :
    GenState :=
  let s1 : GenState :=
    if s.stock < (dem : ℤ) ∧ s.stock ≤ 200 then
      { s with stock := s.stock + 1000, events := Event.reorder 1000 :: s.events }
    else s
  salesLoop qdraw cdraw reps (min (max 1 (dem / 3)) 8) dem s1

/-- The daily while-loop (lines 133-299): each day consumes one uniform
draw to compute the demand, runs the day step, and afterwards breaks out
when more than 10,000 orders exist. -/
def runDays (udraw : ℕ → ℚ) (qdraw cdraw : ℕ → ℕ) (reps : List ℕ) :
    List DayInfo → GenState → GenState
  | [], s => s
  | d :: rest, s =>
    let dem := dailySalesClean d.month d.weekday d.growth (udraw s.uPos)
    let s1 := dayStep qdraw cdraw reps dem { s with uPos := s.uPos + 1 }
    if 10000 < s1.ordersCreated then s1
    else runDays udraw qdraw cdraw reps rest s1

/-- A full generation run from the initial state. -/
def runClean (udraw : ℕ → ℚ) (qdraw cdraw : ℕ → ℕ) (reps : List ℕ)
    (dates : List DayInfo) : GenState :=
  runDays udraw qdraw cdraw reps dates initState

/-- Outcome of a run executed inside the single sqlite transaction:
the committed writes (chronological order) and whether an exception
occurred. -/
structure TxResult where
  committed : List Event
  failed : Bool
deriving DecidableEq, Repr

/-- Transactional run of `generate_amoxicillin_history` (lines 124-326):
all writes go to one connection; `conn.commit()` runs once, after the
whole date loop (or after the order-ceiling break); an exception on the
day numbered `failAt` reaches the handler, which calls `conn.rollback()`,
discarding every uncommitted write of the run.  The store was cleared
before the run, so the committed list starts empty. -/
def runTx (udraw : ℕ → ℚ) (qdraw cdraw : ℕ → ℕ) (reps : List ℕ) :
    ℕ → List DayInfo → GenState → TxResult
  | _, [], s => { committed := s.events.reverse, failed := false }
  | 0, _ :: _, _ => { committed := [], failed := true }
  | failAt + 1, d :: rest, s =>
    let dem := dailySalesClean d.month d.weekday d.growth (udraw s.uPos)
    let s1 := dayStep qdraw cdraw reps dem { s with uPos := s.uPos + 1 }
    if 10000 < s1.ordersCreated then { committed := s1.events.reverse, failed := false }
    else runTx udraw qdraw cdraw reps failAt rest s1

/-- Event-free projection of the generator state: the fields that the
loop conditions can read.  The event list never influences control flow,
so this projection evolves as a self-contained machine. -/
structure PState where
  stock : ℤ
  orders : ℕ
  counter : ℕ
  uPos : ℕ
  qPos : ℕ
  cPos : ℕ
deriving DecidableEq, Repr

/-- Projection of a full generator state. -/
def pProj (s : GenState) : PState :=
  { stock := s.stock, orders := s.ordersCreated, counter := s.orderCounter,
    uPos := s.uPos, qPos := s.qPos, cPos := s.cPos }

/-- Projected inner loop: mirrors `salesLoop` on `PState`.  The sales-rep
list and the choice draw only decide which rep id is written into the
event, so they disappear here; the choice position still advances. -/
def pSalesLoop (qdraw : ℕ → ℕ) : ℕ → ℕ → PState → PState
  | 0, _, p => p
  | n + 1, remaining, p =>
    if remaining = 0 ∨ p.stock ≤ 0 then p
    else
      let q := min (min (1 + qdraw p.qPos % 5) remaining) p.stock.toNat
      let p1 : PState := { p with qPos := p.qPos + 1 }
      if q = 0 then p1
      else if 10000 < p1.orders then p1
      else
        let p2 : PState := { p1 with
          counter := p1.counter + 1,
          cPos := p1.cPos + 1,
          stock := p1.stock - (q : ℤ),
          orders := p1.orders + 1 }
        pSalesLoop qdraw n (remaining - q) p2

/-- Projected day step. -/
def pDayStep (qdraw : ℕ → ℕ) (dem : ℕ) (p : PState) : PState :=
  let p1 : PState :=
    if p.stock < (dem : ℤ) ∧ p.stock ≤ 200 then { p with stock := p.stock + 1000 }
    else p
  pSalesLoop qdraw (min (max 1 (dem / 3)) 8) dem p1

/-- Projected daily loop. -/
def pRunDays (udraw : ℕ → ℚ) (qdraw : ℕ → ℕ) :
    List DayInfo → PState → PState
  | [], p => p
  | d :: rest, p =>
    let dem := dailySalesClean d.month d.weekday d.growth (udraw p.uPos)
    let p1 := pDayStep qdraw dem { p with uPos := p.uPos + 1 }
    if 10000 < p1.orders then p1
    else pRunDays udraw qdraw rest p1

/-- Week-start key of a timestamp, as computed by
`df.groupby(dt.to_period('W'))` followed by `.to_timestamp()` in
`debug_grouping.py` (lines 57-58): the Monday on or before the day
(`d % 7 = 0` is Monday). -/
def weekStart (d : ℤ) : ℤ := d - d % 7

/-- Summed quantity of all records falling in the weekly bucket `k`. -/
def bucketSum (records : List (ℤ × ℕ)) (k : ℤ) : ℕ :=
  ((records.filter (fun r => weekStart r.1 == k)).map Prod.snd).sum

/-- Ordered insertion without duplicates, used to build the sorted unique
group keys that pandas `groupby` produces. -/
def insertKey (x : ℤ) : List ℤ → List ℤ
  | [] => [x]
  | y :: ys => if x = y then y :: ys
    else if x < y then x :: y :: ys
    else y :: insertKey x ys

/-- Sorted, duplicate-free list of weekly keys of the records. -/
def weekKeys (records : List (ℤ × ℕ)) : List ℤ :=
  (records.map (fun r => weekStart r.1)).foldr insertKey []

/-- The `weekly_data` frame of `debug_grouping.py` (lines 57-60): one row
per occupied weekly bucket, keyed by the week-start (Monday) timestamp,
with the summed quantity. -/
def weeklyData (records : List (ℤ × ℕ)) : List (ℤ × ℕ) :=
  (weekKeys records).map (fun k => (k, bucketSum records k))

/-- First Sunday on or after a day (`d % 7 = 6` is Sunday): the first
element `pd.date_range(start, ..., freq='W')` generates. -/
def firstSundayOnOrAfter (start : ℤ) : ℤ := start + (6 - start % 7) % 7

/-- The timestamps produced by `pd.date_range(start, stop, freq='W')`
(line 70 of `debug_grouping.py`): every Sunday `s` with
`start ≤ s ≤ stop`, ascending. -/
def dateRangeW (start stop : ℤ) : List ℤ :=
  if stop < firstSundayOnOrAfter start then []
  else (List.range (((stop - firstSundayOnOrAfter start) / 7).toNat + 1)).map
    (fun (i : ℕ) => firstSundayOnOrAfter start + 7 * (i : ℤ))

/-- Quantity a reindexed row receives: the bucket value when the new
index entry matches a key of the frame, else the `fill_value` 0. -/
def lookupQty (wd : List (ℤ × ℕ)) (d : ℤ) : ℕ :=
  match wd.find? (fun q => q.1 == d) with
  | some q => q.2
  | none => 0

/-- The reindexing of `debug_grouping.py` (lines 70-72):
`weekly_data.set_index('date').reindex(pd.date_range(min, max, freq='W'), fill_value=0)`.
Executed only when records exist (the code sits under
`if filtered_items.exists()`); otherwise empty. -/
def reindexedWeekly (records : List (ℤ × ℕ)) : List (ℤ × ℕ) :=
  match (weeklyData records).head?, (weeklyData records).getLast? with
  | some f, some l =>
    (dateRangeW f.1 l.1).map (fun d => (d, lookupQty (weeklyData records) d))
  | _, _ => []

/-- Well-formedness of a written stock movement: a reorder always carries
quantity +1000 (`reorder_qty = 1000`, line 159), and a sale's movement
quantity is exactly the negation of the order item quantity (lines
244 and 283 insert `order_qty` and `-order_qty`). -/
def EvWf : Event → Prop
  | Event.reorder q => q = 1000
  | Event.sale k m _ => m = -(k : ℤ) ∧ 1 ≤ k

/-- Ledger invariant tying a stock value to an event list: the stock is
the initial 5000 plus all recorded deltas; after every chronological
prefix of the history (a suffix of the newest-first list) the implied
stock is non-negative; and every written movement is well-formed. -/
def StockInv (stock : ℤ) (l : List Event) : Prop :=
  stock = 5000 + (l.map evDelta).sum ∧
  (∀ t : List Event, t.IsSuffix l → 0 ≤ 5000 + ((t.map evDelta).sum)) ∧
  (∀ e, e ∈ l → EvWf e)

/-- Constant uniform-draw stream: every `random.uniform(0.8, 1.2)` call
returns 1. -/
def udraw1 : ℕ → ℚ := fun _ => 1

/-- Constant randint-draw stream: every `random.randint(1, 5)` call
returns `1 + 4 % 5 = 5`. -/
def qdraw4 : ℕ → ℕ := fun _ => 4

/-- Constant choice-draw stream: every `random.choice` call picks
index 0. -/
def cdraw0 : ℕ → ℕ := fun _ => 0

/-- A day in April (month 4, a Wednesday) whose growth factor is 8/3,
giving demand `int(15 * 1.0 * 1.0 * (8/3) * 1) = 40` under `udraw1`. -/
def c8day : DayInfo := ⟨4, 2, 8/3⟩

/-- A day like 2020-01-01 (January, a Wednesday) at growth factor 1,
giving demand `int(15 * 1.3 * 1.0 * 1 * 1) = 19` under `udraw1`. -/
def day19 : DayInfo := ⟨1, 2, 1⟩

/-- Closed-form stock at the start of day `n+1` of the `c8day` run:
5000 falls by 40 a day; from day 126 on, a 1000-unit reorder fires every
25 days when the stock hits 0. -/
def expStock (n : ℕ) : ℤ :=
  if n ≤ 125 then 5000 - 40 * (n : ℤ) else 960 - 40 * (((n - 126) % 25 : ℕ) : ℤ)

/-- Closed-form projected state after `n ≤ 1250` days of the `c8day`
run: 8 orders of 5 units each day. -/
def expState (n : ℕ) : PState :=
  { stock := expStock n, orders := 8 * n, counter := 8 * n,
    uPos := n, qPos := 8 * n, cPos := 8 * n }

/-- The generator state of the C3 scenario: initial stock 50 (the other
fields as at the start of a run, one uniform draw consumed). -/
def scenarioState : GenState :=
  { stock := 50, ordersCreated := 0, orderCounter := 0,
    uPos := 1, qPos := 0, cPos := 0, events := [] }

/-- Report printed by `verify_data_quality` for one granularity:
period count, non-zero period count, non-zero percentage, and the
sufficiency verdict `non_zero >= min_points`. -/
structure QualityReport where
  totalPeriods : ℕ
  nonZeroPeriods : ℕ
  nonZeroPercent : ℚ
  sufficient : Bool
deriving DecidableEq, Repr

/-- Python division: raises `ZeroDivisionError` on a zero denominator. -/
def pyDiv (a b : ℚ) : Except String ℚ :=
  if b = 0 then Except.error "ZeroDivisionError" else Except.ok (a / b)

/-- The quality verification of `generate_amoxicillin_clean.py`
(lines 336-353) and `generate_amoxicillin_historical_data.py`
(lines 356-373) for one granularity: `non_zero = (quantity > 0).sum()`,
`total = len(data)`, the printed percentage `non_zero/total*100`, and the
check `non_zero >= min_data_points.get(period_type, 30)`.  The division
has no guard on `total`, so it is the fallible `pyDiv`. -/
def verify_data_quality (series : List ℕ) (minPoints : ℕ) :
    Except String QualityReport :=
  let total := series.length
  let nonZero := (series.filter (fun q => 0 < q)).length
  match pyDiv (nonZero : ℚ) (total : ℚ) with
  | Except.error e => Except.error e
  | Except.ok frac =>
    Except.ok { totalPeriods := total, nonZeroPeriods := nonZero,
                nonZeroPercent := frac * 100,
                sufficient := decide (minPoints ≤ nonZero) }

@[simp] theorem pProj_stock (s : GenState) : (pProj s).stock = s.stock := rfl

@[simp] theorem pProj_orders (s : GenState) : (pProj s).orders = s.ordersCreated := rfl

@[simp] theorem pProj_counter (s : GenState) : (pProj s).counter = s.orderCounter := rfl

@[simp] theorem pProj_uPos (s : GenState) : (pProj s).uPos = s.uPos := rfl

@[simp] theorem pProj_qPos (s : GenState) : (pProj s).qPos = s.qPos := rfl

@[simp] theorem pProj_cPos (s : GenState) : (pProj s).cPos = s.cPos := rfl

theorem pProj_salesLoop (qdraw cdraw : ℕ → ℕ) (reps : List ℕ) :
    ∀ (n remaining : ℕ) (s : GenState),
      pProj (salesLoop qdraw cdraw reps n remaining s) =
        pSalesLoop qdraw n remaining (pProj s)
  | 0, _, _ => rfl
  | n + 1, remaining, s => by
    simp only [salesLoop, pSalesLoop, pProj_stock, pProj_qPos, pProj_orders]
    by_cases h1 : remaining = 0 ∨ s.stock ≤ 0
    · rw [if_pos h1, if_pos h1]
    · rw [if_neg h1, if_neg h1]
      by_cases h2 : min (min (1 + qdraw s.qPos % 5) remaining) s.stock.toNat = 0
      · rw [if_pos h2, if_pos h2]; rfl
      · rw [if_neg h2, if_neg h2]
        by_cases h3 : 10000 < s.ordersCreated
        · rw [if_pos h3, if_pos h3]; rfl
        · rw [if_neg h3, if_neg h3]
          rw [pProj_salesLoop qdraw cdraw reps n _ _]
          rfl

theorem pProj_dayStep (qdraw cdraw : ℕ → ℕ) (reps : List ℕ) (dem : ℕ)
    (s : GenState) :
    pProj (dayStep qdraw cdraw reps dem s) = pDayStep qdraw dem (pProj s) := by
  simp only [dayStep, pDayStep, pProj_stock]
  by_cases h : s.stock < (dem : ℤ) ∧ s.stock ≤ 200
  · rw [if_pos h, if_pos h, pProj_salesLoop]; rfl
  · rw [if_neg h, if_neg h, pProj_salesLoop]

theorem pProj_runDays (udraw : ℕ → ℚ) (qdraw cdraw : ℕ → ℕ) (reps : List ℕ) :
    ∀ (dates : List DayInfo) (s : GenState),
      pProj (runDays udraw qdraw cdraw reps dates s) =
        pRunDays udraw qdraw dates (pProj s)
  | [], _ => rfl
  | d :: rest, s => by
    have heq : pDayStep qdraw (dailySalesClean d.month d.weekday d.growth (udraw s.uPos))
        ⟨s.stock, s.ordersCreated, s.orderCounter, s.uPos + 1, s.qPos, s.cPos⟩ =
        pProj (dayStep qdraw cdraw reps
          (dailySalesClean d.month d.weekday d.growth (udraw s.uPos))
          { s with uPos := s.uPos + 1 }) :=
      (pProj_dayStep qdraw cdraw reps _ { s with uPos := s.uPos + 1 }).symm
    simp only [runDays, pRunDays, pProj_stock, pProj_orders, pProj_counter,
      pProj_uPos, pProj_qPos, pProj_cPos]
    rw [heq, apply_ite pProj]
    simp only [pProj_orders]
    by_cases h : 10000 <
        (dayStep qdraw cdraw reps
          (dailySalesClean d.month d.weekday d.growth (udraw s.uPos))
          { s with uPos := s.uPos + 1 }).ordersCreated
    · rw [if_pos h, if_pos h]
    · rw [if_neg h, if_neg h, pProj_runDays udraw qdraw cdraw reps rest _]

/-- C6: `generate` is deterministic given the seed: the seed fixes the
uniform and randint draw streams, and neither the contents of the
sales-rep list (the unseeded `ORDER BY RANDOM()` result) nor the choice
draws influence the order count or the final stock of a run over
identical empty stores. -/
theorem c6_deterministic_given_seed
    (udraw : ℕ → ℚ) (qdraw cdraw1 cdraw2 : ℕ → ℕ)
    (reps1 reps2 : List ℕ) (dates : List DayInfo) :
    (runClean udraw qdraw cdraw1 reps1 dates).ordersCreated =
      (runClean udraw qdraw cdraw2 reps2 dates).ordersCreated ∧
    (runClean udraw qdraw cdraw1 reps1 dates).stock =
      (runClean udraw qdraw cdraw2 reps2 dates).stock := by
  have h12 : pProj (runClean udraw qdraw cdraw1 reps1 dates) =
      pProj (runClean udraw qdraw cdraw2 reps2 dates) :=
    (pProj_runDays udraw qdraw cdraw1 reps1 dates initState).trans
      (pProj_runDays udraw qdraw cdraw2 reps2 dates initState).symm
  exact ⟨congrArg PState.orders h12, congrArg PState.stock h12⟩

theorem salesLoop_orders_le (qdraw cdraw : ℕ → ℕ) (reps : List ℕ) :
    ∀ (n remaining : ℕ) (s : GenState), s.ordersCreated ≤ 10001 →
      (salesLoop qdraw cdraw reps n remaining s).ordersCreated ≤ 10001
  | 0, _, _, h => h
  | n + 1, remaining, s, h => by
    simp only [salesLoop]
    by_cases h1 : remaining = 0 ∨ s.stock ≤ 0
    · rw [if_pos h1]; exact h
    · rw [if_neg h1]
      by_cases h2 : min (min (1 + qdraw s.qPos % 5) remaining) s.stock.toNat = 0
      · rw [if_pos h2]; exact h
      · rw [if_neg h2]
        by_cases h3 : 10000 < s.ordersCreated
        · rw [if_pos h3]; exact h
        · rw [if_neg h3]
          exact salesLoop_orders_le qdraw cdraw reps n _ _ (by simp; omega)

theorem dayStep_orders_le (qdraw cdraw : ℕ → ℕ) (reps : List ℕ) (dem : ℕ)
    (s : GenState) (h : s.ordersCreated ≤ 10001) :
    (dayStep qdraw cdraw reps dem s).ordersCreated ≤ 10001 := by
  unfold dayStep
  by_cases h1 : s.stock < (dem : ℤ) ∧ s.stock ≤ 200
  · rw [if_pos h1]; exact salesLoop_orders_le qdraw cdraw reps _ _ _ h
  · rw [if_neg h1]; exact salesLoop_orders_le qdraw cdraw reps _ _ _ h

theorem runDays_orders_le (udraw : ℕ → ℚ) (qdraw cdraw : ℕ → ℕ) (reps : List ℕ) :
    ∀ (dates : List DayInfo) (s : GenState), s.ordersCreated ≤ 10001 →
      (runDays udraw qdraw cdraw reps dates s).ordersCreated ≤ 10001
  | [], _, h => h
  | d :: rest, s, h => by
    simp only [runDays]
    have hd : (dayStep qdraw cdraw reps
        (dailySalesClean d.month d.weekday d.growth (udraw s.uPos))
        { s with uPos := s.uPos + 1 }).ordersCreated ≤ 10001 :=
      dayStep_orders_le qdraw cdraw reps _ _ (by simpa using h)
    by_cases h1 : 10000 <
        (dayStep qdraw cdraw reps
          (dailySalesClean d.month d.weekday d.growth (udraw s.uPos))
          { s with uPos := s.uPos + 1 }).ordersCreated
    · rw [if_pos h1]; exact hd
    · rw [if_neg h1]; exact runDays_orders_le udraw qdraw cdraw reps rest _ hd

/-- C8 (amended): the safety check `if orders_created > 10000: break`
sits before each order creation, so a run can create at most 10,001
orders — one more than the 10,000 stated by the ceiling — after which it
stops creating orders and ends without raising. -/
theorem c8_orders_at_most_ten_thousand_one
    (udraw : ℕ → ℚ) (qdraw cdraw : ℕ → ℕ) (reps : List ℕ)
    (dates : List DayInfo) :
    (runClean udraw qdraw cdraw reps dates).ordersCreated ≤ 10001 :=
  runDays_orders_le udraw qdraw cdraw reps dates initState (by norm_num [initState])

theorem pSalesLoop_zero_rem : ∀ (m : ℕ) (p : PState), pSalesLoop qdraw4 m 0 p = p
  | 0, _ => rfl
  | _ + 1, _ => by simp [pSalesLoop]

theorem pSalesLoop_step5 (n remaining : ℕ) (st : ℤ) (a b c d e : ℕ)
    (h1 : 5 ≤ remaining) (h2 : 5 ≤ st) (h3 : a ≤ 10000) :
    pSalesLoop qdraw4 (n + 1) remaining ⟨st, a, b, c, d, e⟩ =
      pSalesLoop qdraw4 n (remaining - 5) ⟨st - 5, a + 1, b + 1, c, d + 1, e + 1⟩ := by
  have hq : min (min (1 + qdraw4 d % 5) remaining) st.toNat = 5 := by
    simp only [qdraw4]; omega
  simp only [pSalesLoop, hq]
  rw [if_neg (by omega : ¬(remaining = 0 ∨ st ≤ 0)),
    if_neg (by omega : ¬(5 : ℕ) = 0),
    if_neg (by omega : ¬10000 < a)]
  norm_num

theorem pSalesLoop_block : ∀ (k m : ℕ) (st : ℤ) (a b c d e : ℕ),
    5 * (k : ℤ) ≤ st → a + k ≤ 10001 →
    pSalesLoop qdraw4 (k + m) (5 * k) ⟨st, a, b, c, d, e⟩ =
      pSalesLoop qdraw4 m 0 ⟨st - 5 * k, a + k, b + k, c, d + k, e + k⟩
  | 0, m, st, a, b, c, d, e, _, _ => by norm_num
  | k + 1, m, st, a, b, c, d, e, hst, ha => by
    have hstep := pSalesLoop_step5 (k + m) (5 * (k + 1)) st a b c d e
      (by omega) (by omega) (by omega)
    rw [show k + 1 + m = (k + m) + 1 from by omega, hstep,
      show 5 * (k + 1) - 5 = 5 * k from by omega,
      pSalesLoop_block k m (st - 5) (a + 1) (b + 1) c (d + 1) (e + 1)
        (by omega) (by omega)]
    refine congrArg (pSalesLoop qdraw4 m 0) ?_
    simp only [PState.mk.injEq, and_true, true_and]
    omega

theorem pDayStep_reorder (dem : ℕ) (st : ℤ) (a b c d e : ℕ)
    (h : st < (dem : ℤ) ∧ st ≤ 200) :
    pDayStep qdraw4 dem ⟨st, a, b, c, d, e⟩ =
      pSalesLoop qdraw4 (min (max 1 (dem / 3)) 8) dem ⟨st + 1000, a, b, c, d, e⟩ := by
  unfold pDayStep
  rw [if_pos (show (⟨st, a, b, c, d, e⟩ : PState).stock < (dem : ℤ) ∧
    (⟨st, a, b, c, d, e⟩ : PState).stock ≤ 200 from h)]

theorem pDayStep_noreorder (dem : ℕ) (st : ℤ) (a b c d e : ℕ)
    (h : ¬(st < (dem : ℤ) ∧ st ≤ 200)) :
    pDayStep qdraw4 dem ⟨st, a, b, c, d, e⟩ =
      pSalesLoop qdraw4 (min (max 1 (dem / 3)) 8) dem ⟨st, a, b, c, d, e⟩ := by
  unfold pDayStep
  rw [if_neg (show ¬((⟨st, a, b, c, d, e⟩ : PState).stock < (dem : ℤ) ∧
    (⟨st, a, b, c, d, e⟩ : PState).stock ≤ 200) from h)]

theorem pDayStep_c8 (st : ℤ) (a b c d e : ℕ)
    (hmod : st % 40 = 0) (h0 : 0 ≤ st) (ha : a ≤ 9992) :
    pDayStep qdraw4 40 ⟨st, a, b, c, d, e⟩ =
      ⟨(if st = 0 then 960 else st - 40), a + 8, b + 8, c, d + 8, e + 8⟩ := by
  have h8 : min (max 1 (40 / 3)) 8 = 8 := by norm_num
  by_cases hz : st = 0
  · rw [pDayStep_reorder 40 st a b c d e ⟨by omega, by omega⟩, h8]
    have hb := pSalesLoop_block 8 0 (st + 1000) a b c d e (by omega) (by omega)
    norm_num at hb
    rw [show (40 : ℕ) = 5 * 8 from rfl] at hb ⊢
    rw [hb, pSalesLoop_zero_rem, if_pos hz]
    simp only [PState.mk.injEq, and_true, true_and]
    omega
  · have h40 : 40 ≤ st := by omega
    rw [pDayStep_noreorder 40 st a b c d e (by intro hcon; omega), h8]
    have hb := pSalesLoop_block 8 0 st a b c d e (by omega) (by omega)
    norm_num at hb
    rw [show (40 : ℕ) = 5 * 8 from rfl] at hb ⊢
    rw [hb, pSalesLoop_zero_rem, if_neg hz]

theorem dem40c :
    dailySalesClean c8day.month c8day.weekday c8day.growth 1 = 40 := by
  with_unfolding_all rfl

theorem expStock_nonneg (k : ℕ) (_hk : k ≤ 1250) : 0 ≤ expStock k := by
  unfold expStock
  split_ifs <;> omega

theorem expStock_mod40 (k : ℕ) (_hk : k ≤ 1250) : expStock k % 40 = 0 := by
  unfold expStock
  split_ifs <;> omega

theorem expStock_succ (k : ℕ) (hk : k ≤ 1249) :
    (if expStock k = 0 then (960 : ℤ) else expStock k - 40) = expStock (k + 1) := by
  unfold expStock
  split_ifs <;> omega

theorem pRun_c8_days : ∀ (n k : ℕ), k + n ≤ 1250 →
    pRunDays udraw1 qdraw4 (List.replicate n c8day)
      ⟨expStock k, 8 * k, 8 * k, k, 8 * k, 8 * k⟩ =
      ⟨expStock (k + n), 8 * (k + n), 8 * (k + n), k + n, 8 * (k + n), 8 * (k + n)⟩
  | 0, k, _ => by simp [pRunDays]
  | n + 1, k, h => by
    rw [List.replicate_succ]
    show pRunDays udraw1 qdraw4 (c8day :: List.replicate n c8day) _ = _
    simp only [pRunDays, udraw1, dem40c]
    have hd := pDayStep_c8 (expStock k) (8 * k) (8 * k) (k + 1) (8 * k) (8 * k)
      (expStock_mod40 k (by omega)) (expStock_nonneg k (by omega)) (by omega)
    simp only [hd]
    rw [expStock_succ k (by omega)]
    have hst : (⟨expStock (k + 1), 8 * k + 8, 8 * k + 8, k + 1, 8 * k + 8, 8 * k + 8⟩ : PState) =
        ⟨expStock (k + 1), 8 * (k + 1), 8 * (k + 1), k + 1, 8 * (k + 1), 8 * (k + 1)⟩ := by
      simp only [PState.mk.injEq, and_true, true_and]
      omega
    rw [hst]
    rw [if_neg (show ¬10000 < 8 * k + 8 from by omega)]
    rw [pRun_c8_days n (k + 1) (by omega)]
    have harg : k + 1 + n = k + (n + 1) := by omega
    rw [harg]

theorem pRunDays_append (udraw : ℕ → ℚ) (qdraw : ℕ → ℕ) :
    ∀ (l1 l2 : List DayInfo) (p : PState),
      (pRunDays udraw qdraw l1 p).orders ≤ 10000 →
      pRunDays udraw qdraw (l1 ++ l2) p =
        pRunDays udraw qdraw l2 (pRunDays udraw qdraw l1 p)
  | [], l2, p, _ => rfl
  | d :: rest, l2, p, h => by
    simp only [pRunDays, List.cons_append] at h ⊢
    by_cases hb : 10000 <
        (pDayStep qdraw (dailySalesClean d.month d.weekday d.growth (udraw p.uPos))
          { p with uPos := p.uPos + 1 }).orders
    · rw [if_pos hb] at h
      omega
    · rw [if_neg hb] at h
      rw [if_neg hb, if_neg hb]
      exact pRunDays_append udraw qdraw rest l2 _ h

/-- C8 (counterexample): a run over 1251 days of constant demand 40
(April Wednesdays with growth factor 8/3, all uniform draws 1, all
randint draws 5, one sales rep) creates 10,001 orders — one more than
the claimed 10,000 maximum — because the ceiling test
`orders_created > 10000` is strict and sits before each creation. -/
theorem c8_counterexample_10001_orders :
    (runClean udraw1 qdraw4 cdraw0 [1] (List.replicate 1251 c8day)).ordersCreated
      = 10001 := by
  have hproj : pProj (runClean udraw1 qdraw4 cdraw0 [1] (List.replicate 1251 c8day)) =
      pRunDays udraw1 qdraw4 (List.replicate 1251 c8day) (pProj initState) :=
    pProj_runDays udraw1 qdraw4 cdraw0 [1] (List.replicate 1251 c8day) initState
  have hinit : pProj initState = (⟨5000, 0, 0, 0, 0, 0⟩ : PState) := rfl
  have hsplit : List.replicate 1251 c8day =
      List.replicate 1250 c8day ++ List.replicate 1 c8day := by
    rw [← List.replicate_add]
  have he0 : expStock 0 = 5000 := by decide
  have he1250 : expStock 1250 = 0 := by decide
  have h1250 := pRun_c8_days 1250 0 (by omega)
  rw [he0] at h1250
  norm_num at h1250
  rw [he1250] at h1250
  have hlast : pRunDays udraw1 qdraw4 (List.replicate 1 c8day)
      (⟨0, 10000, 10000, 1250, 10000, 10000⟩ : PState) =
      ⟨995, 10001, 10001, 1251, 10002, 10001⟩ := by with_unfolding_all rfl
  have hle : (pRunDays udraw1 qdraw4 (List.replicate 1250 c8day)
      (⟨5000, 0, 0, 0, 0, 0⟩ : PState)).orders ≤ 10000 := by
    rw [h1250]
  have hgoal : (runClean udraw1 qdraw4 cdraw0 [1]
      (List.replicate 1251 c8day)).ordersCreated =
      (pProj (runClean udraw1 qdraw4 cdraw0 [1] (List.replicate 1251 c8day))).orders := rfl
  rw [hgoal, hproj, hinit, hsplit,
    pRunDays_append udraw1 qdraw4 _ _ _ hle, h1250, hlast]

theorem stockInv_cons (st : ℤ) (l : List Event) (e : Event)
    (h : StockInv st l) (hw : EvWf e) (hnn : 0 ≤ st + evDelta e) :
    StockInv (st + evDelta e) (e :: l) := by
  obtain ⟨h1, h2, h3⟩ := h
  refine ⟨?_, ?_, ?_⟩
  · rw [List.map_cons, List.sum_cons]
    omega
  · intro t ht
    rw [List.suffix_cons_iff] at ht
    rcases ht with ht | ht
    · subst ht
      rw [List.map_cons, List.sum_cons]
      omega
    · exact h2 t ht
  · intro e2 he2
    rcases List.mem_cons.mp he2 with he2 | he2
    · subst he2; exact hw
    · exact h3 e2 he2

theorem stockInv_stock_nonneg (st : ℤ) (l : List Event) (h : StockInv st l) :
    0 ≤ st := by
  have h2 := h.2.1 l (List.suffix_refl l)
  have h1 := h.1
  omega

theorem salesLoop_inv (qdraw cdraw : ℕ → ℕ) (reps : List ℕ) :
    ∀ (n remaining : ℕ) (s : GenState), StockInv s.stock s.events →
      StockInv (salesLoop qdraw cdraw reps n remaining s).stock
        (salesLoop qdraw cdraw reps n remaining s).events
  | 0, _, _, h => h
  | n + 1, remaining, s, h => by
    simp only [salesLoop]
    by_cases h1 : remaining = 0 ∨ s.stock ≤ 0
    · rw [if_pos h1]; exact h
    · rw [if_neg h1]
      by_cases h2 : min (min (1 + qdraw s.qPos % 5) remaining) s.stock.toNat = 0
      · rw [if_pos h2]; exact h
      · rw [if_neg h2]
        by_cases h3 : 10000 < s.ordersCreated
        · rw [if_pos h3]; exact h
        · rw [if_neg h3]
          apply salesLoop_inv qdraw cdraw reps n
          have hq : (min (min (1 + qdraw s.qPos % 5) remaining) s.stock.toNat) ≤ s.stock.toNat :=
            min_le_right _ _
          exact stockInv_cons s.stock s.events
            (Event.sale (min (min (1 + qdraw s.qPos % 5) remaining) s.stock.toNat)
              (-((min (min (1 + qdraw s.qPos % 5) remaining) s.stock.toNat : ℕ) : ℤ))
              (reps.getD (cdraw s.cPos % reps.length) 0))
            h ⟨rfl, by omega⟩
            (by show 0 ≤ s.stock +
              -((min (min (1 + qdraw s.qPos % 5) remaining) s.stock.toNat : ℕ) : ℤ); omega)

theorem dayStep_inv (qdraw cdraw : ℕ → ℕ) (reps : List ℕ) (dem : ℕ)
    (s : GenState) (h : StockInv s.stock s.events) :
    StockInv (dayStep qdraw cdraw reps dem s).stock
      (dayStep qdraw cdraw reps dem s).events := by
  unfold dayStep
  by_cases h1 : s.stock < (dem : ℤ) ∧ s.stock ≤ 200
  · rw [if_pos h1]
    apply salesLoop_inv qdraw cdraw reps
    have hnn : 0 ≤ s.stock := stockInv_stock_nonneg s.stock s.events h
    exact stockInv_cons s.stock s.events (Event.reorder 1000) h rfl
      (by show 0 ≤ s.stock + 1000; omega)
  · rw [if_neg h1]
    exact salesLoop_inv qdraw cdraw reps _ _ _ h

theorem runDays_inv (udraw : ℕ → ℚ) (qdraw cdraw : ℕ → ℕ) (reps : List ℕ) :
    ∀ (dates : List DayInfo) (s : GenState), StockInv s.stock s.events →
      StockInv (runDays udraw qdraw cdraw reps dates s).stock
        (runDays udraw qdraw cdraw reps dates s).events
  | [], _, h => h
  | d :: rest, s, h => by
    simp only [runDays]
    have hd : StockInv (dayStep qdraw cdraw reps
          (dailySalesClean d.month d.weekday d.growth (udraw s.uPos))
          { s with uPos := s.uPos + 1 }).stock
        (dayStep qdraw cdraw reps
          (dailySalesClean d.month d.weekday d.growth (udraw s.uPos))
          { s with uPos := s.uPos + 1 }).events :=
      dayStep_inv qdraw cdraw reps _ _ h
    by_cases h1 : 10000 <
        (dayStep qdraw cdraw reps
          (dailySalesClean d.month d.weekday d.growth (udraw s.uPos))
          { s with uPos := s.uPos + 1 }).ordersCreated
    · rw [if_pos h1]; exact hd
    · rw [if_neg h1]; exact runDays_inv udraw qdraw cdraw reps rest _ hd

theorem runClean_inv (udraw : ℕ → ℚ) (qdraw cdraw : ℕ → ℕ) (reps : List ℕ)
    (dates : List DayInfo) :
    StockInv (runClean udraw qdraw cdraw reps dates).stock
      (runClean udraw qdraw cdraw reps dates).events := by
  apply runDays_inv
  refine ⟨by simp [initState], ?_, by simp [initState]⟩
  intro t ht
  rw [show initState.events = [] from rfl, List.suffix_nil] at ht
  subst ht
  simp

/-- C5: throughout a whole generation run, the on-hand stock implied
after every chronological prefix of the written movement history (a
suffix of the newest-first event list) is non-negative, for every draw
stream, sales-rep list and date range: every order is capped by the
remaining stock and creation stops when stock is exhausted. -/
theorem c5_stock_nonneg_after_every_event
    (udraw : ℕ → ℚ) (qdraw cdraw : ℕ → ℕ) (reps : List ℕ)
    (dates : List DayInfo) (t : List Event)
    (ht : t.IsSuffix (runClean udraw qdraw cdraw reps dates).events) :
    0 ≤ 5000 + ((t.map evDelta).sum) :=
  (runClean_inv udraw qdraw cdraw reps dates).2.1 t ht

theorem c5_witness :
    0 ≤ 5000 + ((((runClean udraw1 qdraw4 cdraw0 [1] [day19]).events).map evDelta).sum) :=
  c5_stock_nonneg_after_every_event udraw1 qdraw4 cdraw0 [1] [day19]
    (runClean udraw1 qdraw4 cdraw0 [1] [day19]).events
    (List.suffix_refl _)

/-- C10: the stock ledger is consistent with the persisted snapshot: at
the end of a run the stored current stock equals the initial 5000 plus
the sum of all recorded stock-movement quantities, every reorder
movement carries +1000, and every sale movement carries exactly minus
its order item quantity. -/
theorem c10_ledger_consistent
    (udraw : ℕ → ℚ) (qdraw cdraw : ℕ → ℕ) (reps : List ℕ)
    (dates : List DayInfo) :
    (runClean udraw qdraw cdraw reps dates).stock =
      5000 + (((runClean udraw qdraw cdraw reps dates).events.map evDelta).sum) ∧
    ∀ e, e ∈ (runClean udraw qdraw cdraw reps dates).events → EvWf e :=
  ⟨(runClean_inv udraw qdraw cdraw reps dates).1,
   (runClean_inv udraw qdraw cdraw reps dates).2.2⟩

theorem c10_witness :
    (runClean udraw1 qdraw4 cdraw0 [1] [day19]).stock =
      5000 + (((runClean udraw1 qdraw4 cdraw0 [1] [day19]).events.map evDelta).sum) ∧
    EvWf (Event.sale 5 (-5) 1) :=
  ⟨(c10_ledger_consistent udraw1 qdraw4 cdraw0 [1] [day19]).1,
   (c10_ledger_consistent udraw1 qdraw4 cdraw0 [1] [day19]).2 (Event.sale 5 (-5) 1)
     (by rw [show (runClean udraw1 qdraw4 cdraw0 [1] [day19]).events =
          [Event.sale 4 (-4) 1, Event.sale 5 (-5) 1, Event.sale 5 (-5) 1,
            Event.sale 5 (-5) 1] from by with_unfolding_all rfl]
         simp)⟩

theorem salesLoop_events (qdraw cdraw : ℕ → ℕ) (reps : List ℕ) :
    ∀ (n remaining : ℕ) (s : GenState),
      ∃ sp : List Event,
        (salesLoop qdraw cdraw reps n remaining s).events = sp ++ s.events ∧
        ∀ e ∈ sp, ∃ k r, e = Event.sale k (-(k : ℤ)) r
  | 0, _, _ => ⟨[], rfl, by simp⟩
  | n + 1, remaining, s => by
    simp only [salesLoop]
    by_cases h1 : remaining = 0 ∨ s.stock ≤ 0
    · rw [if_pos h1]; exact ⟨[], rfl, by simp⟩
    · rw [if_neg h1]
      by_cases h2 : min (min (1 + qdraw s.qPos % 5) remaining) s.stock.toNat = 0
      · rw [if_pos h2]; exact ⟨[], rfl, by simp⟩
      · rw [if_neg h2]
        by_cases h3 : 10000 < s.ordersCreated
        · rw [if_pos h3]; exact ⟨[], rfl, by simp⟩
        · rw [if_neg h3]
          obtain ⟨sp, hsp, hall⟩ := salesLoop_events qdraw cdraw reps n
            (remaining - min (min (1 + qdraw s.qPos % 5) remaining) s.stock.toNat)
            { s with
              orderCounter := s.orderCounter + 1,
              cPos := s.cPos + 1,
              qPos := s.qPos + 1,
              stock := s.stock - ((min (min (1 + qdraw s.qPos % 5) remaining) s.stock.toNat : ℕ) : ℤ),
              ordersCreated := s.ordersCreated + 1,
              events := Event.sale (min (min (1 + qdraw s.qPos % 5) remaining) s.stock.toNat)
                (-((min (min (1 + qdraw s.qPos % 5) remaining) s.stock.toNat : ℕ) : ℤ))
                (reps.getD (cdraw s.cPos % reps.length) 0) :: s.events }
          refine ⟨sp ++ [Event.sale (min (min (1 + qdraw s.qPos % 5) remaining) s.stock.toNat)
            (-((min (min (1 + qdraw s.qPos % 5) remaining) s.stock.toNat : ℕ) : ℤ))
            (reps.getD (cdraw s.cPos % reps.length) 0)], ?_, ?_⟩
          · rw [hsp]
            simp
          · intro e he
            rcases List.mem_append.mp he with he | he
            · exact hall e he
            · rcases List.mem_singleton.mp he with rfl
              exact ⟨_, _, rfl⟩

/-- C3 (amended): during a simulated day a reorder movement of the fixed
quantity 1000 is appended, and on-hand raised, exactly when the current
stock is both below that day's computed demand and at or below the
reorder point 200 — not whenever it is at or below the reorder point —
and it is written before any of that day's sale movements (it sits
below them in the newest-first event list); everything else the day
writes is a sale movement. -/
theorem c3_reorder_iff_low_stock_before_sales
    (qdraw cdraw : ℕ → ℕ) (reps : List ℕ) (dem : ℕ) (s : GenState) :
    ∃ sp : List Event,
      (dayStep qdraw cdraw reps dem s).events =
        sp ++ (if s.stock < (dem : ℤ) ∧ s.stock ≤ 200
          then Event.reorder 1000 :: s.events else s.events) ∧
      ∀ e ∈ sp, ∃ k r, e = Event.sale k (-(k : ℤ)) r := by
  unfold dayStep
  by_cases h : s.stock < (dem : ℤ) ∧ s.stock ≤ 200
  · rw [if_pos h, if_pos h]
    exact salesLoop_events qdraw cdraw reps _ _ _
  · rw [if_neg h, if_neg h]
    exact salesLoop_events qdraw cdraw reps _ _ _

/-- C3 (counterexample): the claimed scenario — initial stock 50,
reorder point 200, reorder quantity 1000, base rate 15 — does not fire a
reorder on day 1: on 2020-01-01 (January, Wednesday, growth 1) with
uniform draw 1 the demand is 19, and since 50 is not below 19 the
reorder condition `current_stock < daily_sales` fails; the day ends at
stock 31 = 50 - 19 (not 1050 - 19) with no reorder movement written. -/
theorem c3_counterexample_no_reorder_day_one :
    dailySalesClean day19.month day19.weekday day19.growth 1 = 19 ∧
    (dayStep qdraw4 cdraw0 [1] 19 scenarioState).stock = 31 ∧
    (dayStep qdraw4 cdraw0 [1] 19 scenarioState).events =
      [Event.sale 4 (-4) 1, Event.sale 5 (-5) 1, Event.sale 5 (-5) 1,
        Event.sale 5 (-5) 1] := by
  refine ⟨?_, ?_, ?_⟩ <;> with_unfolding_all rfl

/-- C4 (amended): the run executes inside a single transaction committed
once at the very end, so a failure on any simulated day rolls back the
writes of every previously completed day as well: whenever the run
fails, the committed store stays empty. -/
theorem c4_failed_run_commits_nothing
    (udraw : ℕ → ℚ) (qdraw cdraw : ℕ → ℕ) (reps : List ℕ) :
    ∀ (failAt : ℕ) (dates : List DayInfo) (s : GenState),
      (runTx udraw qdraw cdraw reps failAt dates s).failed = true →
      (runTx udraw qdraw cdraw reps failAt dates s).committed = []
  | _, [], _, h => by simp [runTx] at h
  | 0, _ :: _, _, _ => rfl
  | failAt + 1, d :: rest, s, h => by
    simp only [runTx] at h ⊢
    by_cases hb : 10000 <
        (dayStep qdraw cdraw reps
          (dailySalesClean d.month d.weekday d.growth (udraw s.uPos))
          { s with uPos := s.uPos + 1 }).ordersCreated
    · rw [if_pos hb] at h
      simp at h
    · rw [if_neg hb] at h ⊢
      exact c4_failed_run_commits_nothing udraw qdraw cdraw reps failAt rest _ h

theorem c4_witness :
    (runTx udraw1 qdraw4 cdraw0 [1] 0 [day19] initState).committed = [] :=
  c4_failed_run_commits_nothing udraw1 qdraw4 cdraw0 [1] 0 [day19] initState rfl

/-- C4 (counterexample): with a failure on day 2 (index 1) of a two-day
run, the store ends empty — the four order/movement writes of the
completed day 1 do not remain committed, although the same day 1 alone
would have committed them; the rollback discards the whole run, not just
the failing day's batch. -/
theorem c4_counterexample_failure_discards_day_one :
    (runTx udraw1 qdraw4 cdraw0 [1] 1 [day19, day19] initState).failed = true ∧
    (runTx udraw1 qdraw4 cdraw0 [1] 1 [day19, day19] initState).committed = [] ∧
    (runTx udraw1 qdraw4 cdraw0 [1] 2 [day19] initState).committed =
      [Event.sale 5 (-5) 1, Event.sale 5 (-5) 1, Event.sale 5 (-5) 1,
        Event.sale 4 (-4) 1] := by
  refine ⟨?_, ?_, ?_⟩ <;> with_unfolding_all rfl

/-- C2 (failing input): on an empty aggregated series the quality
verifier computes `non_zero/total*100` with `total = 0`, a division by
zero — so no report with a 0% non-zero figure is produced, for any of
the per-granularity thresholds (daily 30, weekly 8, monthly 3). -/
theorem c2_verify_empty_divides_by_zero :
    verify_data_quality [] 30 = Except.error "ZeroDivisionError" ∧
    verify_data_quality [] 8 = Except.error "ZeroDivisionError" ∧
    verify_data_quality [] 3 = Except.error "ZeroDivisionError" := by
  refine ⟨?_, ?_, ?_⟩ <;> with_unfolding_all rfl

/-- C9 (counterexample): with identical growth and uniform factors the
two generators disagree: on a January Sunday at growth 1 and draw 1 the
clean script computes `int(15 * 1.3 * 0.7 * 1 * 1) = 13` while
`calculate_daily_sales` computes `int(round(15 * 1.3 * 0.4 * 1 * 1)) = 8`;
their seasonal mappings also differ outside winter and summer (April:
1.0 against 0.9). -/
theorem c9_counterexample_demands_differ :
    dailySalesClean 1 6 1 1 = 13 ∧ dailySalesHist 1 6 1 1 = 8 ∧
    dailySalesClean 1 6 1 1 ≠ dailySalesHist 1 6 1 1 ∧
    seasonalMultClean 4 ≠ seasonalMultHist 4 := by
  refine ⟨by with_unfolding_all rfl, by with_unfolding_all rfl,
    of_decide_eq_true (by with_unfolding_all rfl),
    of_decide_eq_true (by with_unfolding_all rfl)⟩

/-- C9 (amended): the two daily-demand computations differ in their
weekday tables (equal only on Wednesday), their int conversion
(truncation against round-half-even) and their seasonal tables (equal
only in winter and summer); they agree on winter and summer Wednesdays
whenever the shared product is non-negative with fractional part below
one half, where truncation and rounding coincide. -/
theorem c9_agree_winter_summer_wednesday (m : ℕ) (g u : ℚ)
    (hm : m = 12 ∨ m = 1 ∨ m = 2 ∨ m = 6 ∨ m = 7 ∨ m = 8)
    (hx : 0 ≤ 15 * seasonalMultClean m * weekdayMultClean 2 * g * u)
    (hfr : ratFrac (15 * seasonalMultClean m * weekdayMultClean 2 * g * u) < 1/2) :
    dailySalesClean m 2 g u = dailySalesHist m 2 g u := by
  have hs : seasonalMultHist m = seasonalMultClean m := by
    rcases hm with rfl | rfl | rfl | rfl | rfl | rfl <;>
      norm_num [seasonalMultClean, seasonalMultHist]
  have hw : weekdayMultHist 2 = weekdayMultClean 2 := by
    norm_num [weekdayMultClean, weekdayMultHist]
  unfold dailySalesClean dailySalesHist
  rw [hs, hw]
  have hpi : pyInt (15 * seasonalMultClean m * weekdayMultClean 2 * g * u) =
      ratFloorZ (15 * seasonalMultClean m * weekdayMultClean 2 * g * u) := by
    unfold pyInt ratFloorZ
    exact (Int.fdiv_eq_tdiv (Rat.num_nonneg.mpr hx) (Int.natCast_nonneg _)).symm
  have hpr : pyRound (15 * seasonalMultClean m * weekdayMultClean 2 * g * u) =
      ratFloorZ (15 * seasonalMultClean m * weekdayMultClean 2 * g * u) := by
    unfold pyRound
    rw [if_pos hfr]
  rw [hpi, hpr]

theorem c9_witness :
    dailySalesClean 12 2 1 (21/20) = dailySalesHist 12 2 1 (21/20) :=
  c9_agree_winter_summer_wednesday 12 1 (21/20) (Or.inl rfl)
    (of_decide_eq_true (by with_unfolding_all rfl))
    (of_decide_eq_true (by with_unfolding_all rfl))

theorem reindexedWeekly_shape (records : List (ℤ × ℕ)) :
    reindexedWeekly records = [] ∨
    ∃ a b, reindexedWeekly records =
      (dateRangeW a b).map (fun d => (d, lookupQty (weeklyData records) d)) := by
  unfold reindexedWeekly
  cases hh : (weeklyData records).head? with
  | none => exact Or.inl rfl
  | some f =>
    cases hl : (weeklyData records).getLast? with
    | none => exact Or.inl rfl
    | some l => exact Or.inr ⟨f.1, l.1, rfl⟩

theorem dateRangeW_getD (a b : ℤ) (i : ℕ) (h : i < (dateRangeW a b).length) :
    (dateRangeW a b).getD i 0 = firstSundayOnOrAfter a + 7 * (i : ℤ) := by
  have hc : ¬ b < firstSundayOnOrAfter a := by
    intro hcon
    have hlen : (dateRangeW a b).length = 0 := by
      unfold dateRangeW
      rw [if_pos hcon]
      rfl
    omega
  have heq : dateRangeW a b =
      (List.range (((b - firstSundayOnOrAfter a) / 7).toNat + 1)).map
        (fun (j : ℕ) => firstSundayOnOrAfter a + 7 * (j : ℤ)) := by
    unfold dateRangeW
    rw [if_neg hc]
  rw [heq] at h ⊢
  rw [List.getD_eq_getElem _ _ (by simpa using h)]
  simp

/-- C7: the reindexed weekly series has no gaps and no duplicates —
consecutive period-start timestamps differ by exactly one weekly step of
7 days (hence are strictly increasing) — and every period whose
timestamp matches no key of the bucketed frame carries the fill
quantity 0. -/
theorem c7_reindexed_no_gaps_fill_zero (records : List (ℤ × ℕ)) :
    (∀ i : ℕ, i + 1 < (reindexedWeekly records).length →
      ((reindexedWeekly records).getD (i + 1) (0, 0)).1 =
        ((reindexedWeekly records).getD i (0, 0)).1 + 7) ∧
    (∀ p, p ∈ reindexedWeekly records →
      (∀ b, b ∈ weeklyData records → b.1 ≠ p.1) → p.2 = 0) := by
  rcases reindexedWeekly_shape records with heq | ⟨a, b, heq⟩
  · rw [heq]
    refine ⟨fun i h => by simp at h, fun p hp => by simp at hp⟩
  · rw [heq]
    constructor
    · intro i h
      rw [List.length_map] at h
      rw [List.getD_eq_getElem _ _ (by simpa using h),
        List.getD_eq_getElem _ _ (by simp; omega)]
      simp only [List.getElem_map]
      have hget1 : (dateRangeW a b).getD (i + 1) 0 =
          firstSundayOnOrAfter a + 7 * ((i + 1 : ℕ) : ℤ) := dateRangeW_getD a b (i + 1) h
      have hget0 : (dateRangeW a b).getD i 0 =
          firstSundayOnOrAfter a + 7 * (i : ℤ) := dateRangeW_getD a b i (by omega)
      rw [List.getD_eq_getElem _ _ h] at hget1
      rw [List.getD_eq_getElem _ _ (by omega : i < (dateRangeW a b).length)] at hget0
      show (dateRangeW a b)[i + 1] = (dateRangeW a b)[i] + 7
      rw [hget1, hget0]
      push_cast
      ring
    · intro p hp habs
      rcases List.mem_map.mp hp with ⟨d, hd, rfl⟩
      show lookupQty (weeklyData records) d = 0
      unfold lookupQty
      cases hfind : (weeklyData records).find? (fun q => q.1 == d) with
      | none => rfl
      | some q =>
        have hmem : q ∈ weeklyData records := List.mem_of_find?_eq_some hfind
        have hq := List.find?_some hfind
        exact absurd (by simpa using hq) (habs q hmem)

theorem c7_witness :
    ((reindexedWeekly [((0:ℤ), (5:ℕ)), (14, 7)]).getD 1 (0, 0)).1 =
      ((reindexedWeekly [((0:ℤ), (5:ℕ)), (14, 7)]).getD 0 (0, 0)).1 + 7 ∧
    (((6:ℤ), (0:ℕ)) : ℤ × ℕ).2 = 0 :=
  ⟨(c7_reindexed_no_gaps_fill_zero [((0:ℤ), (5:ℕ)), (14, 7)]).1 0 (by decide),
   (c7_reindexed_no_gaps_fill_zero [((0:ℤ), (5:ℕ)), (14, 7)]).2 ((6:ℤ), (0:ℕ))
     (by decide) (by decide)⟩

/-- C1 (failing input evaluated): two realized order items of quantities
5 and 7 on the Mondays 2020-01-06 (day 0) and 2020-01-20 (day 14).
Weekly bucketing keys them by their week-start Mondays and preserves the
total 12, but the reindexing step rebuilds the index from
`date_range(min, max, freq='W')`, whose entries are the Sundays day 6
and day 13; no Monday key matches, every row receives the fill value 0,
and the reindexed total collapses to 0 instead of 12. -/
theorem c1_weekly_reindex_drops_quantities :
    (([((0:ℤ), (5:ℕ)), (14, 7)].map Prod.snd).sum = 12) ∧
    ((weeklyData [((0:ℤ), (5:ℕ)), (14, 7)]).map Prod.snd).sum = 12 ∧
    reindexedWeekly [((0:ℤ), (5:ℕ)), (14, 7)] = [(6, 0), (13, 0)] ∧
    ((reindexedWeekly [((0:ℤ), (5:ℕ)), (14, 7)]).map Prod.snd).sum = 0 := by
  refine ⟨?_, ?_, ?_, ?_⟩ <;> decide

end MedNov